import Mathlib

/-!
Verification of the ScholarCite citation pipeline.

This file embeds the string-processing core of the repository in Lean:
the selective renderer `getFilteredCitedText` and word-diff `getWordDiff`
from `src/App.tsx`, and the response-processing pipeline `processCitations`
with its inline `extractJsonArray` helper from the Gemini service module.
JavaScript strings are modelled as Lean `String` (lists of characters);
the handful of regular expressions used by the code are transliterated into
explicit left-to-right, leftmost-match, greedy scanners, which is exactly
the semantics of JavaScript global `String.replace` for these patterns.
All scanners are written with an explicit fuel argument (the length of the
scanned list) so that every definition evaluates inside the kernel.
-/

/-- Character class of JavaScript's regex `\s` (also the character set
trimmed by `String.prototype.trim`): ASCII whitespace, NBSP, the Unicode
space separators, line/paragraph separators and the BOM. -/
def jsWhitespace (c : Char) : Bool :=
  c == ' ' || c == '\t' || c == '\n' || c == '\r' ||
  c == Char.ofNat 11 || c == Char.ofNat 12 ||
  c == Char.ofNat 0xa0 || c == Char.ofNat 0x1680 ||
  (decide (0x2000 ≤ c.toNat) && decide (c.toNat ≤ 0x200a)) ||
  c == Char.ofNat 0x2028 || c == Char.ofNat 0x2029 ||
  c == Char.ofNat 0x202f || c == Char.ofNat 0x205f ||
  c == Char.ofNat 0x3000 || c == Char.ofNat 0xfeff

/-- Decide whether the character list `l` starts with the character list
`pat` (`leadsWith pat l`). -/
def leadsWith : List Char → List Char → Bool
  | [], _ => true
  | _ :: _, [] => false
  | a :: as, b :: bs => a == b && leadsWith as bs

/-- Scanner underlying `removeAll`: deletes the leftmost non-overlapping
occurrences of `tag`, continuing after each deleted occurrence, which is the
behaviour of JavaScript `s.split(tag).join("")` for a non-empty `tag`. -/
def removeAllAux (tag : List Char) : Nat → List Char → List Char
  | _, [] => []
  | 0, s => s
  | fuel + 1, c :: cs =>
    if tag ≠ [] ∧ leadsWith tag (c :: cs) then
      removeAllAux tag fuel (List.drop (tag.length - 1) cs)
    else
      c :: removeAllAux tag fuel cs

/-- Model of `filteredText.split(tag).join("")` (App.tsx line 24): remove
every (non-overlapping, left-to-right) occurrence of `tag` from `s`. -/
def removeAll (tag s : String) : String :=
  ⟨removeAllAux tag.data s.data.length s.data⟩

/-- Scanner for `replace(/,\s*,/g, ',')`: a comma, a maximal whitespace run
and a second comma collapse to one comma; scanning resumes after the match. -/
def replCommaCommaAux : Nat → List Char → List Char
  | _, [] => []
  | 0, s => s
  | fuel + 1, c :: cs =>
    if c = ',' then
      match cs.dropWhile jsWhitespace with
      | ',' :: rest2 => ',' :: replCommaCommaAux fuel rest2
      | _ => c :: replCommaCommaAux fuel cs
    else c :: replCommaCommaAux fuel cs

/-- Model of `.replace(/,\s*,/g, ',')` (App.tsx line 30). -/
def replCommaComma (s : String) : String :=
  ⟨replCommaCommaAux s.data.length s.data⟩

/-- Scanner for `replace(/\s{2,}/g, ' ')`: a maximal whitespace run of
length at least two becomes a single space. -/
def replWsRunAux : Nat → List Char → List Char
  | _, [] => []
  | 0, s => s
  | fuel + 1, c :: cs =>
    if jsWhitespace c then
      if cs.takeWhile jsWhitespace ≠ [] then
        ' ' :: replWsRunAux fuel (cs.dropWhile jsWhitespace)
      else c :: replWsRunAux fuel cs
    else c :: replWsRunAux fuel cs

/-- Model of `.replace(/\s{2,}/g, ' ')` (App.tsx line 31). -/
def replWsRun (s : String) : String :=
  ⟨replWsRunAux s.data.length s.data⟩

/-- Scanner for `replace(/\(\s*,\s*/g, '(')`. -/
def replParenCommaAux : Nat → List Char → List Char
  | _, [] => []
  | 0, s => s
  | fuel + 1, c :: cs =>
    if c = '(' then
      match cs.dropWhile jsWhitespace with
      | ',' :: rest2 => '(' :: replParenCommaAux fuel (rest2.dropWhile jsWhitespace)
      | _ => c :: replParenCommaAux fuel cs
    else c :: replParenCommaAux fuel cs

/-- Model of `.replace(/\(\s*,\s*/g, '(')` (App.tsx line 32). -/
def replParenComma (s : String) : String :=
  ⟨replParenCommaAux s.data.length s.data⟩

/-- Scanner for `replace(/,\s*\)/g, ')')`. -/
def replCommaParenAux : Nat → List Char → List Char
  | _, [] => []
  | 0, s => s
  | fuel + 1, c :: cs =>
    if c = ',' then
      match cs.dropWhile jsWhitespace with
      | ')' :: rest2 => ')' :: replCommaParenAux fuel rest2
      | _ => c :: replCommaParenAux fuel cs
    else c :: replCommaParenAux fuel cs

/-- Model of `.replace(/,\s*\)/g, ')')` (App.tsx line 33). -/
def replCommaParen (s : String) : String :=
  ⟨replCommaParenAux s.data.length s.data⟩

/-- Scanner for `replace(/\(\s*\)/g, '')`. -/
def replEmptyParenAux : Nat → List Char → List Char
  | _, [] => []
  | 0, s => s
  | fuel + 1, c :: cs =>
    if c = '(' then
      match cs.dropWhile jsWhitespace with
      | ')' :: rest2 => replEmptyParenAux fuel rest2
      | _ => c :: replEmptyParenAux fuel cs
    else c :: replEmptyParenAux fuel cs

/-- Model of `.replace(/\(\s*\)/g, '')` (App.tsx line 34). -/
def replEmptyParen (s : String) : String :=
  ⟨replEmptyParenAux s.data.length s.data⟩

/-- Scanner for `replace(/\[\s*\]/g, '')`. -/
def replEmptyBracketAux : Nat → List Char → List Char
  | _, [] => []
  | 0, s => s
  | fuel + 1, c :: cs =>
    if c = '[' then
      match cs.dropWhile jsWhitespace with
      | ']' :: rest2 => replEmptyBracketAux fuel rest2
      | _ => c :: replEmptyBracketAux fuel cs
    else c :: replEmptyBracketAux fuel cs

/-- Model of `.replace(/\[\s*\]/g, '')` (App.tsx line 35). -/
def replEmptyBracket (s : String) : String :=
  ⟨replEmptyBracketAux s.data.length s.data⟩

/-- Scanner for `replace(/\s+([.,])/g, '$1')`: a maximal whitespace run
immediately followed by `.` or `,` is replaced by that punctuation mark. -/
def replWsPunctAux : Nat → List Char → List Char
  | _, [] => []
  | 0, s => s
  | fuel + 1, c :: cs =>
    if jsWhitespace c then
      match cs.dropWhile jsWhitespace with
      | p :: rest2 =>
        if p = '.' ∨ p = ',' then p :: replWsPunctAux fuel rest2
        else c :: replWsPunctAux fuel cs
      | [] => c :: replWsPunctAux fuel cs
    else c :: replWsPunctAux fuel cs

/-- Model of `.replace(/\s+([.,])/g, '$1')` (App.tsx line 36). -/
def replWsPunct (s : String) : String :=
  ⟨replWsPunctAux s.data.length s.data⟩

/-- Model of JavaScript `String.prototype.trim` on character lists. -/
def jsTrimL (l : List Char) : List Char :=
  ((l.dropWhile jsWhitespace).reverse.dropWhile jsWhitespace).reverse

/-- Model of JavaScript `String.prototype.trim`. -/
def jsTrim (s : String) : String := ⟨jsTrimL s.data⟩

/-- The fixed cleanup pipeline applied by `getFilteredCitedText`
(App.tsx lines 29-37), in the source's exact order. -/
def cleanupChain (s : String) : String :=
  jsTrim (replWsPunct (replEmptyBracket (replEmptyParen (replCommaParen
    (replParenComma (replWsRun (replCommaComma s)))))))

/-- The `Reference` record of `src/types.ts`.  At runtime a reference is a
JSON-derived object, so every field may be absent; absence is modelled with
`Option` (`none` plays the role of `undefined`). -/
structure Reference where
  id : Option Int := none
  title : Option String := none
  authors : Option String := none
  year : Option String := none
  journal : Option String := none
  url : Option String := none
  grade : Option String := none
  lang : Option String := none
  snippet : Option String := none
  citationReason : Option String := none
  relatedCitedSentence : Option String := none
  originalSourceSentence : Option String := none
  sourceParagraph : Option String := none
  sourceSection : Option String := none
  isSelected : Option Bool := none
  citationTag : Option String := none
  deriving Repr, DecidableEq

/-- JavaScript truthiness of an optional string: `undefined` and the empty
string are falsy, every other string is truthy. -/
def truthyStr : Option String → Bool
  | none => false
  | some s => !(s == "")

/-- One iteration of the `references.forEach` loop of
`getFilteredCitedText` (App.tsx lines 20-27): when `!ref.isSelected` and
`ref.citationTag` is truthy, remove every occurrence of the trimmed tag. -/
def applyRefFilter (t : String) (ref : Reference) : String :=
  if ref.isSelected = some true then t
  else if truthyStr ref.citationTag then
    (if jsTrim (ref.citationTag.getD "") = "" then t
     else removeAll (jsTrim (ref.citationTag.getD "")) t)
  else t

/-- Model of `getFilteredCitedText` (App.tsx lines 17-38): drop the tags of
all non-selected references, then run the fixed cleanup pipeline. -/
def getFilteredCitedText (citedText : String) (references : List Reference) : String :=
  cleanupChain (references.foldl applyRefFilter citedText)

/-- Output element of the word-diff renderer: an unclassified span (the
short-circuit branch and whitespace tokens), an `unchanged` token (rendered
in plain style), or an `added` token (rendered highlighted). -/
inductive DiffSpan where
  | plain (s : String)
  | unchanged (s : String)
  | added (s : String)
  deriving Repr, DecidableEq

/-- Model of JavaScript `.split(/(\s+)/)`: alternate maximal non-whitespace
and whitespace runs, keeping the whitespace runs as their own tokens; the
first and last tokens are (possibly empty) non-whitespace tokens. -/
def splitKeepWsAux : Nat → List Char → List String
  | 0, l => [⟨l⟩]
  | fuel + 1, l =>
    match l.dropWhile (fun c => !jsWhitespace c) with
    | [] => [⟨l.takeWhile (fun c => !jsWhitespace c)⟩]
    | rest =>
      ⟨l.takeWhile (fun c => !jsWhitespace c)⟩ ::
        ⟨rest.takeWhile jsWhitespace⟩ ::
          splitKeepWsAux fuel (rest.dropWhile jsWhitespace)

/-- Model of `str.split(/(\s+)/)` as used by `getWordDiff`. -/
def splitKeepWs (s : String) : List String :=
  splitKeepWsAux (s.data.length + 1) s.data

/-- Classification of a single revised-text token by `getWordDiff`
(App.tsx lines 52-59): whitespace-only tokens pass through unclassified,
tokens present anywhere in the baseline token list are `unchanged`, all
other tokens are `added`. -/
def classifyWord (oldWords : List String) (w : String) : DiffSpan :=
  if jsTrim w = "" then .plain w
  else if oldWords.contains w then .unchanged w
  else .added w

/-- Model of `getWordDiff` (App.tsx lines 40-60).  The markup stripper is
`stripHtml`, implemented in the source with the browser's `DOMParser`; it is
external to the repository's own logic, so it is taken as a parameter. -/
def getWordDiffWith (strip : String → String) (oldStr newStr : String) : List DiffSpan :=
  if oldStr = "" ∨ newStr = "" then [.plain newStr]
  else
    (splitKeepWs (strip newStr)).map (classifyWord (splitKeepWs (strip oldStr)))

/-- Holds when every non-whitespace token of a diff result is `added`. -/
def diffAllAdded (l : List DiffSpan) : Bool :=
  l.all fun sp =>
    match sp with
    | .added _ => true
    | .plain w => jsTrim w == ""
    | .unchanged _ => false

/-- Holds when every non-whitespace token of a diff result is `unchanged`. -/
def diffAllUnchanged (l : List DiffSpan) : Bool :=
  l.all fun sp =>
    match sp with
    | .unchanged _ => true
    | .plain w => jsTrim w == ""
    | .added _ => false

/-- A saved session (`SavedCitation` in `src/types.ts`): a `CitationResult`
plus the timestamp that identifies it in the history list. -/
structure SavedCitation where
  originalText : String
  citedText : String
  references : List Reference
  groundingUrls : List (String × String)
  timestamp : Int
  deriving Repr, DecidableEq

/-- Model of `toggleReferenceSelection` (App.tsx lines 150-162): map over
the saved sessions; inside a session whose timestamp matches, map over its
references flipping `isSelected` of those whose id matches. -/
def toggleReferenceSelection (sessionTimestamp : Int) (refId : Int)
    (sessions : List SavedCitation) : List SavedCitation :=
  sessions.map fun session =>
    if session.timestamp = sessionTimestamp then
      { session with
        references := session.references.map fun ref =>
          if ref.id = some refId then
            { ref with isSelected := some (!(ref.isSelected.getD false)) }
          else ref }
    else session

/-- Scanner underlying `splitOnce`: find the leftmost occurrence of `sep`
and return the text before it together with the text after it, or `none`
when `sep` does not occur.  This is the semantics of the first two fields
of JavaScript `s.split(sep)` for a non-empty separator. -/
def splitOnceAux (sep : List Char) : Nat → List Char → Option (List Char × List Char)
  | _, [] => none
  | 0, _ => none
  | fuel + 1, c :: cs =>
    if leadsWith sep (c :: cs) then some ([], List.drop sep.length (c :: cs))
    else
      match splitOnceAux sep fuel cs with
      | some (b, a) => some (c :: b, a)
      | none => none

/-- Split a string at the leftmost occurrence of a non-empty separator. -/
def splitOnce (sep s : String) : Option (String × String) :=
  match splitOnceAux sep.data s.data.length s.data with
  | some (b, a) => some (⟨b⟩, ⟨a⟩)
  | none => none

/-- Model of JavaScript `s.includes(sep)` for a non-empty `sep`. -/
def hasSubstr (sep s : String) : Bool :=
  (splitOnce sep s).isSome

/-- Model of `s.split(sep)[0]`: the text before the first occurrence of
`sep` (the whole string when `sep` does not occur). -/
def part0 (sep s : String) : String :=
  match splitOnce sep s with
  | some (b, _) => b
  | none => s

/-- Model of `s.split(sep)[1]`: the text strictly between the first and
the second occurrence of `sep` (up to the end when there is no second occurrence).
Only used under an `includes` guard, so the no-occurrence case is never
reached; it is modelled as the empty string. -/
def part1 (sep s : String) : String :=
  match splitOnce sep s with
  | some (_, a) => part0 sep a
  | none => ""

/-- Lowercase character list of the label pattern `Cited Text`. -/
def labelChars : List Char := "cited text".data

/-- Case-insensitive analogue of `leadsWith`: the pattern is given in
lowercase and each text character is lowercased before comparison, which is
the effect of the regex `/i` flag on this ASCII pattern. -/
def leadsWithCI : List Char → List Char → Bool
  | [], _ => true
  | _ :: _, [] => false
  | a :: as, b :: bs => a == b.toLower && leadsWithCI as bs

/-- Model of `.replace(/Cited Text[:\s]*/i, "")`: delete the first
case-insensitive occurrence of `Cited Text` together with the maximal
following run of colons and whitespace.  The regex has no `g` flag, so only
the first match is removed. -/
def stripCitedLabelAux : Nat → List Char → List Char
  | _, [] => []
  | 0, s => s
  | fuel + 1, c :: cs =>
    if leadsWithCI labelChars (c :: cs) then
      (List.drop (labelChars.length - 1) cs).dropWhile (fun ch => ch == ':' || jsWhitespace ch)
    else c :: stripCitedLabelAux fuel cs

/-- Model of `parts[0].replace(/Cited Text[:\s]*/i, "")`. -/
def stripCitedLabel (s : String) : String :=
  ⟨stripCitedLabelAux s.data.length s.data⟩

/-- Model of the inline `extractJsonArray` helper of `processCitations`
(Gemini service module): take the substring from the first `[` to the last
`]`, provided both exist and the last `]` comes after the first `[`;
otherwise return `null`. -/
def extractJsonArray (text : String) : Option String :=
  match List.findIdx? (fun c => c == '[') text.data with
  | none => none
  | some firstBracket =>
    match List.findIdx? (fun c => c == ']') text.data.reverse with
    | none => none
    | some revIdx =>
      let lastBracket := text.data.length - 1 - revIdx
      if firstBracket < lastBracket then
        some ⟨(text.data.drop firstBracket).take (lastBracket - firstBracket + 1)⟩
      else none

/-- Modelled from the spec: the string-literal-aware search for the first
unescaped `[` outside a string literal (spec 4.1, balanced-bracket scan);
this scan is absent from the source, which uses the naive first-`[`/
last-`]` extraction above.  State: `inStr` is the inside-string flag,
`esc` records that the previous character was an unconsumed backslash. -/
def specFindStart : Nat → Bool → Bool → List Char → Option (List Char)
  | 0, _, _, _ => none
  | _ + 1, _, _, [] => none
  | fuel + 1, inStr, esc, c :: cs =>
    if esc then specFindStart fuel inStr false cs
    else if c = '\\' then specFindStart fuel inStr true cs
    else if c = '"' then specFindStart fuel (!inStr) false cs
    else if c = '[' ∧ inStr = false then some (c :: cs)
    else specFindStart fuel inStr false cs

/-- Modelled from the spec: the signed-depth scan of spec 4.1 — starting at
an opening `[`, increment depth on unescaped `[`/`{` and decrement on
unescaped `]`/`}` outside string literals, toggling the in-string flag on
unescaped `"`; the span ends where depth returns to zero, and no span is
produced when it never does. -/
def specExtractLoop : Nat → List Char → Nat → Bool → Bool → List Char → Option (List Char)
  | 0, _, _, _, _, _ => none
  | _ + 1, _, _, _, _, [] => none
  | fuel + 1, acc, depth, inStr, esc, c :: cs =>
    if esc then specExtractLoop fuel (acc ++ [c]) depth inStr false cs
    else if c = '\\' then specExtractLoop fuel (acc ++ [c]) depth inStr true cs
    else if c = '"' then specExtractLoop fuel (acc ++ [c]) depth (!inStr) false cs
    else if inStr then specExtractLoop fuel (acc ++ [c]) depth inStr false cs
    else if c = '[' ∨ c = '{' then specExtractLoop fuel (acc ++ [c]) (depth + 1) inStr false cs
    else if c = ']' ∨ c = '}' then
      if depth ≤ 1 then some (acc ++ [c])
      else specExtractLoop fuel (acc ++ [c]) (depth - 1) inStr false cs
    else specExtractLoop fuel (acc ++ [c]) depth inStr false cs

/-- Modelled from the spec: the complete balanced-bracket array extraction
of spec 4.1, used here as the reference behaviour against which the
source's naive `extractJsonArray` is compared. -/
def specExtractJsonArray (text : String) : Option String :=
  match specFindStart text.data.length false false text.data with
  | none => none
  | some s =>
    match specExtractLoop s.length [] 0 false false s with
    | some span => some ⟨span⟩
    | none => none

/-- JavaScript truthiness of an optional number: `undefined` and `0` are
falsy (`NaN`, the remaining falsy number, has no counterpart in this
model), every other number is truthy. -/
def truthyIntOpt : Option Int → Bool
  | none => false
  | some v => !(v == 0)

/-- The per-record validity filter of `processCitations`
(`.filter(ref => ref.title && ref.originalSourceSentence && ref.citationTag)`). -/
def keepRef (ref : Reference) : Bool :=
  truthyStr ref.title && truthyStr ref.originalSourceSentence && truthyStr ref.citationTag

/-- The per-record normalization of `processCitations`
(`{ ...ref, isSelected: true, id: ref.id || Math.floor(Math.random() * 1000) }`):
force `isSelected` to `true` and replace a falsy `id` by a fresh value
(`randId` stands for the `Math.random()` draw of this record). -/
def normalizeRef (randId : Int) (ref : Reference) : Reference :=
  { ref with
    isSelected := some true
    id := some (if truthyIntOpt ref.id then ref.id.getD 0 else randId) }

/-- Map `normalizeRef` over a list, drawing the `i`-th record's fallback id
from the supply `rand` — one `Math.random()` call per mapped record, in
order. -/
def normMapAux (rand : Nat → Int) : Nat → List Reference → List Reference
  | _, [] => []
  | i, r :: rs => normalizeRef (rand i) r :: normMapAux rand (i + 1) rs

/-- The validation/normalization stage of `processCitations` (lines 99-107
of the Gemini service module): keep the records passing `keepRef`, in
order, and normalize each.  `rand` supplies the `Math.random()` draws. -/
def processCitationsRefs (rand : Nat → Int) (raw : List Reference) : List Reference :=
  normMapAux rand 0 (raw.filter keepRef)

/-- The sentinel separating narrative text from the reference payload. -/
def SENTINEL : String := "---REFERENCES_START---"

/-- The placeholder substituted for an empty narrative
(`citedText || "분석 결과를 생성하지 못했습니다."`). -/
def FALLBACK_TEXT : String := "분석 결과를 생성하지 못했습니다."

/-- Model of the response-processing logic of `processCitations`
(lines 69-114 of the Gemini service module).  `parse` stands for the
external `JSON.parse` builtin (returning `none` both when parsing throws —
the `catch` branch — and when the result is not an array, covering the
`Array.isArray` guard); `rand` supplies the `Math.random()` draws of the
normalization stage.  Returns the pair (citedText, references). -/
def processCitations (parse : String → Option (List Reference)) (rand : Nat → Int)
    (fullResponse : String) : String × List Reference :=
  let pair :=
    if hasSubstr SENTINEL fullResponse then
      let citedText := jsTrim (stripCitedLabel (part0 SENTINEL fullResponse))
      match extractJsonArray (part1 SENTINEL fullResponse) with
      | some jsonContent => (citedText, (parse jsonContent).getD [])
      | none => (citedText, [])
    else
      match extractJsonArray fullResponse with
      | some jsonContent =>
        (jsTrim (stripCitedLabel (part0 jsonContent fullResponse)), (parse jsonContent).getD [])
      | none => (jsTrim fullResponse, [])
  ((if pair.1 = "" then FALLBACK_TEXT else pair.1), processCitationsRefs rand pair.2)

/-- A list that starts with `l` passes the `leadsWith l` test. -/
theorem leadsWith_append_self : ∀ (l t : List Char), leadsWith l (l ++ t) = true := by
  intro l t
  induction l with
  | nil => rfl
  | cons a as ih => simp [leadsWith, ih]

/-- Every token of a list, classified against that same list, comes out
whitespace or `unchanged`. -/
theorem diffAllUnchanged_map_classify (l : List String) :
    diffAllUnchanged (l.map (classifyWord l)) = true := by
  rw [diffAllUnchanged, List.all_eq_true]
  intro sp hsp
  rcases List.mem_map.mp hsp with ⟨w, hw, rfl⟩
  rw [classifyWord]
  by_cases h : jsTrim w = ""
  · simp [h]
  · rw [if_neg h, if_pos]
    show (List.elem w l) = true
    exact List.elem_iff.mpr hw

/-- Normalization keeps the `title` field, so mapping titles over a
normalized batch recovers the input titles. -/
theorem normMapAux_map_title (rand : Nat → Int) :
    ∀ (i : Nat) (l : List Reference),
      (normMapAux rand i l).map Reference.title = l.map Reference.title := by
  intro i l
  induction l generalizing i with
  | nil => rfl
  | cons hd tl ih => simp [normMapAux, normalizeRef, ih]

/-- Every record produced by the normalization map carries
`isSelected = some true`. -/
theorem normMapAux_isSelected (rand : Nat → Int) :
    ∀ (i : Nat) (l : List Reference) (r : Reference),
      r ∈ normMapAux rand i l → r.isSelected = some true := by
  intro i l
  induction l generalizing i with
  | nil => intro r h; simp [normMapAux] at h
  | cons hd tl ih =>
    intro r h
    rcases List.mem_cons.mp h with h | h
    · rw [h]; rfl
    · exact ih (i + 1) r h

/-- A record with a truthy provided id keeps that id through the
normalization map. -/
theorem normMapAux_id_mem (rand : Nat → Int) :
    ∀ (i : Nat) (l : List Reference) (r : Reference),
      r ∈ l → truthyIntOpt r.id = true →
      ∃ q ∈ normMapAux rand i l, q.id = r.id := by
  intro i l
  induction l generalizing i with
  | nil => intro r h; exact absurd h (List.not_mem_nil r)
  | cons hd tl ih =>
    intro r h ht
    rcases List.mem_cons.mp h with h | h
    · subst h
      refine ⟨normalizeRef (rand i) r, List.mem_cons_self _ _, ?_⟩
      cases hid : r.id with
      | none => rw [hid] at ht; simp [truthyIntOpt] at ht
      | some v =>
        rw [hid] at ht
        simp [normalizeRef, hid, ht]
    · obtain ⟨q, hq, he⟩ := ih (i + 1) r h ht
      exact ⟨q, List.mem_cons_of_mem _ hq, he⟩

/-- A reference whose `isSelected` field is `undefined` drives
`applyRefFilter` exactly as one whose field is explicitly `false`. -/
theorem applyRefFilter_none_eq_false (t : String) (r : Reference) :
    applyRefFilter t { r with isSelected := none } =
      applyRefFilter t { r with isSelected := some false } := rfl

/-- C1: on Scenario 1's input — text `AI improves outcomes [1] and [2].`
with reference 1 (tag `[1]`) deselected and reference 2 (tag `[2]`)
selected — the selective renderer removes the deselected tag's occurrence,
collapses the resulting double space, and returns exactly
`AI improves outcomes and [2].`. -/
theorem getFilteredCitedText_scenario1 :
    getFilteredCitedText "AI improves outcomes [1] and [2]."
      [{ id := some 1, citationTag := some "[1]", isSelected := some false },
       { id := some 2, citationTag := some "[2]", isSelected := some true }] =
      "AI improves outcomes and [2]." := by
  decide

/-- C6 counterexample: with an empty baseline the source short-circuits
(`if (!oldStr || !newStr) return <span>{newStr || ""}</span>`) and returns
the revised text as a single unclassified span, so the non-whitespace token
`hello` of the revised text is not classified as added. -/
theorem getWordDiff_emptyBaseline_cex :
    getWordDiffWith (fun s => s) "" "hello" = [DiffSpan.plain "hello"] ∧
    diffAllAdded (getWordDiffWith (fun s => s) "" "hello") = false := by
  decide

/-- C6 amended: for every markup stripper, diffing an empty baseline
against T yields the single unclassified span T (no token is marked added,
because of the guard), and for nonempty T the diff of T against itself
classifies every non-whitespace token as unchanged. -/
theorem getWordDiff_self_and_empty (strip : String → String) (T : String) :
    getWordDiffWith strip "" T = [DiffSpan.plain T] ∧
    (T ≠ "" → diffAllUnchanged (getWordDiffWith strip T T) = true) := by
  constructor
  · rw [getWordDiffWith, if_pos (Or.inl rfl)]
  · intro hT
    rw [getWordDiffWith, if_neg (by simp [hT])]
    exact diffAllUnchanged_map_classify _

/-- C6 witness: the self-diff clause applied at the concrete nonempty text
`ab cd` with the identity stripper. -/
theorem getWordDiff_self_witness :
    ("ab cd" ≠ "") ∧
    diffAllUnchanged (getWordDiffWith (fun s => s) "ab cd" "ab cd") = true :=
  ⟨by decide, (getWordDiff_self_and_empty (fun s => s) "ab cd").2 (by decide)⟩

/-- C9: a reference whose `isSelected` field is absent is treated by the
selective renderer exactly as an explicitly deselected one (JavaScript
`!undefined` is `true`), wherever it sits in the reference list; and for
such a reference with a non-empty trimmed tag the renderer removes every
occurrence of the trimmed tag before running the cleanup pipeline. -/
theorem getFilteredCitedText_isSelected_absent :
    (∀ (t : String) (r : Reference) (l₁ l₂ : List Reference),
      getFilteredCitedText t (l₁ ++ { r with isSelected := none } :: l₂) =
        getFilteredCitedText t (l₁ ++ { r with isSelected := some false } :: l₂)) ∧
    (∀ (t c : String) (r : Reference),
      r.isSelected = none → r.citationTag = some c → jsTrim c ≠ "" →
      getFilteredCitedText t [r] = cleanupChain (removeAll (jsTrim c) t)) := by
  constructor
  · intro t r l₁ l₂
    rw [getFilteredCitedText, getFilteredCitedText, List.foldl_append, List.foldl_append,
        List.foldl_cons, List.foldl_cons, applyRefFilter_none_eq_false]
  · intro t c r hsel htag htrim
    have hc : c ≠ "" := by
      intro he
      exact htrim (by rw [he]; rfl)
    rw [getFilteredCitedText, List.foldl_cons, List.foldl_nil, applyRefFilter,
        if_neg (by rw [hsel]; simp), htag]
    rw [if_pos (by simp [truthyStr, hc]), Option.getD_some, if_neg htrim]

/-- C9 witness: a reference with `isSelected` absent and tag ` [3] ` has
its trimmed tag `[3]` removed from the text. -/
theorem getFilteredCitedText_isSelected_absent_witness :
    getFilteredCitedText "a [3] b." [{ citationTag := some " [3] " }] =
      cleanupChain (removeAll (jsTrim " [3] ") "a [3] b.") ∧
    getFilteredCitedText "a [3] b." [{ citationTag := some " [3] " }] = "a b." :=
  ⟨getFilteredCitedText_isSelected_absent.2 "a [3] b." " [3] "
      { citationTag := some " [3] " } rfl rfl (by decide),
    by decide⟩

/-- C10: toggling a reference rebuilds the history pointwise: sessions with
a different timestamp are returned unchanged; in a session with the
matching timestamp, `originalText`, `citedText`, `groundingUrls` and
`timestamp` are unchanged and the references are rebuilt pointwise —
references with a different id unchanged, references with the matching id
changed only in `isSelected`, which becomes the negation of its JavaScript
truthiness (`!ref.isSelected`). -/
theorem toggleReferenceSelection_frame (ts refId : Int) (sessions : List SavedCitation) :
    List.Forall₂ (fun s s' =>
      (s.timestamp ≠ ts → s' = s) ∧
      (s.timestamp = ts →
        s'.originalText = s.originalText ∧ s'.citedText = s.citedText ∧
        s'.groundingUrls = s.groundingUrls ∧ s'.timestamp = s.timestamp ∧
        List.Forall₂ (fun r r' =>
          (r.id ≠ some refId → r' = r) ∧
          (r.id = some refId →
            r'.isSelected = some (!(r.isSelected.getD false)) ∧
            r'.id = r.id ∧ r'.title = r.title ∧ r'.authors = r.authors ∧
            r'.year = r.year ∧ r'.journal = r.journal ∧ r'.url = r.url ∧
            r'.grade = r.grade ∧ r'.lang = r.lang ∧ r'.snippet = r.snippet ∧
            r'.citationReason = r.citationReason ∧
            r'.relatedCitedSentence = r.relatedCitedSentence ∧
            r'.originalSourceSentence = r.originalSourceSentence ∧
            r'.sourceParagraph = r.sourceParagraph ∧
            r'.sourceSection = r.sourceSection ∧
            r'.citationTag = r.citationTag))
          s.references s'.references))
      sessions (toggleReferenceSelection ts refId sessions) := by
  rw [toggleReferenceSelection, List.forall₂_map_right_iff, List.forall₂_same]
  intro s _
  by_cases h : s.timestamp = ts
  · refine ⟨fun hne => absurd h hne, fun _ => ?_⟩
    rw [if_pos h]
    refine ⟨rfl, rfl, rfl, rfl, ?_⟩
    rw [List.forall₂_map_right_iff, List.forall₂_same]
    intro r _
    by_cases hid : r.id = some refId
    · refine ⟨fun hne => absurd hid hne, fun _ => ?_⟩
      rw [if_pos hid]
      exact ⟨rfl, rfl, rfl, rfl, rfl, rfl, rfl, rfl, rfl, rfl, rfl, rfl, rfl, rfl, rfl, rfl⟩
    · exact ⟨fun _ => by rw [if_neg hid], fun he => absurd he hid⟩
  · exact ⟨fun _ => by rw [if_neg h], fun he => absurd he h⟩

/-- C3: at a concrete response whose array payload has bracket characters
inside a string literal and a stray bracket after the array, the source's
`extractJsonArray` (first `[` to last `]`) grabs the trailing garbage along
with the array, while the spec's balanced, string-literal-aware scan
extracts exactly the array span. -/
theorem extractJsonArray_naive_vs_spec :
    extractJsonArray "[\x7b\"title\": \"A [draft] Study\"\x7d] and [more]" =
      some "[\x7b\"title\": \"A [draft] Study\"\x7d] and [more]" ∧
    specExtractJsonArray "[\x7b\"title\": \"A [draft] Study\"\x7d] and [more]" =
      some "[\x7b\"title\": \"A [draft] Study\"\x7d]" ∧
    ("[\x7b\"title\": \"A [draft] Study\"\x7d] and [more]" : String) ≠
      "[\x7b\"title\": \"A [draft] Study\"\x7d]" := by
  decide

/-- C4 counterexample: a record with a non-empty title, a non-empty
snippet and a non-empty citation tag — valid according to the claim's
`title AND (originalSourceSentence OR snippet) AND citationTag` rule — is
dropped by the code, which requires `originalSourceSentence` itself. -/
theorem processCitationsRefs_snippet_only_dropped :
    truthyStr (Reference.title
      { title := some "A Study", snippet := some "evidence snippet",
        citationTag := some "[1]" }) = true ∧
    truthyStr (Reference.snippet
      { title := some "A Study", snippet := some "evidence snippet",
        citationTag := some "[1]" }) = true ∧
    truthyStr (Reference.citationTag
      { title := some "A Study", snippet := some "evidence snippet",
        citationTag := some "[1]" }) = true ∧
    processCitationsRefs (fun _ => 0)
      [{ title := some "A Study", snippet := some "evidence snippet",
         citationTag := some "[1]" }] = [] := by
  decide

/-- C4 amended: a record is kept iff it has truthy `title`,
`originalSourceSentence` and `citationTag` (the snippet field plays no
role); invalid records are dropped silently (the kept titles form a
sublist of the input titles) and kept records preserve the input order
(the kept titles are exactly the filtered input titles, in order). -/
theorem processCitationsRefs_validation (rand : Nat → Int) (raw : List Reference) :
    (processCitationsRefs rand raw).map Reference.title =
      (raw.filter keepRef).map Reference.title ∧
    List.Sublist ((processCitationsRefs rand raw).map Reference.title)
      (raw.map Reference.title) ∧
    ∀ r : Reference, processCitationsRefs rand [r] ≠ [] ↔
      (truthyStr r.title = true ∧ truthyStr r.originalSourceSentence = true ∧
        truthyStr r.citationTag = true) := by
  have h1 := normMapAux_map_title rand 0 (raw.filter keepRef)
  refine ⟨h1, ?_, ?_⟩
  · rw [processCitationsRefs, h1]
    exact (List.filter_sublist raw).map Reference.title
  · intro r
    rw [processCitationsRefs]
    by_cases h : keepRef r = true
    · have h' := h
      rw [keepRef, Bool.and_eq_true, Bool.and_eq_true] at h'
      simp [List.filter_cons, h, normMapAux, h'.1.1, h'.1.2, h'.2]
    · simp only [List.filter_cons, if_neg h, normMapAux, ne_eq, not_true_eq_false,
        false_iff, not_and]
      intro ha hb hc
      exact h (by rw [keepRef, ha, hb, hc]; rfl)

/-- C7 counterexample: two valid records both arriving with id 5 keep both
ids — the result's id list is `[5, 5]`, which is not duplicate-free, and no
synthesized sequential id is assigned. -/
theorem processCitationsRefs_duplicate_ids :
    (processCitationsRefs (fun _ => 777)
      [{ id := some 5, title := some "First", originalSourceSentence := some "sa",
         citationTag := some "[1]" },
       { id := some 5, title := some "Second", originalSourceSentence := some "sb",
         citationTag := some "[2]" }]).map Reference.id = [some 5, some 5] ∧
    ¬ ((processCitationsRefs (fun _ => 777)
      [{ id := some 5, title := some "First", originalSourceSentence := some "sa",
         citationTag := some "[1]" },
       { id := some 5, title := some "Second", originalSourceSentence := some "sb",
         citationTag := some "[2]" }]).map Reference.id).Nodup := by
  decide

/-- C7 amended: after validation/normalization every kept reference
carries `isSelected = some true`, and a kept record with a truthy provided
id keeps that id verbatim (uniqueness is not enforced; a falsy id is
replaced by a `Math.random()`-derived value from the supply, not a
sequential one). -/
theorem processCitationsRefs_normalization :
    (∀ (rand : Nat → Int) (raw : List Reference) (r : Reference),
      r ∈ processCitationsRefs rand raw → r.isSelected = some true) ∧
    (∀ (rand : Nat → Int) (raw : List Reference) (r : Reference),
      r ∈ raw → keepRef r = true → truthyIntOpt r.id = true →
      ∃ q ∈ processCitationsRefs rand raw, q.id = r.id) := by
  constructor
  · intro rand raw r h
    exact normMapAux_isSelected rand 0 _ r h
  · intro rand raw r hmem hkeep hid
    exact normMapAux_id_mem rand 0 _ r (List.mem_filter.mpr ⟨hmem, hkeep⟩) hid

/-- C7 witness: both clauses applied to a concrete valid record with
provided id 5 and the constant id supply 7. -/
theorem processCitationsRefs_normalization_witness :
    (normalizeRef 7
        { id := some 5, title := some "T",
          originalSourceSentence := some "s", citationTag := some "[1]" }).isSelected =
      some true ∧
    ∃ q ∈ processCitationsRefs (fun _ => 7)
        [{ id := some 5, title := some "T", originalSourceSentence := some "s",
           citationTag := some "[1]" }], q.id = some 5 := by
  constructor
  · exact processCitationsRefs_normalization.1 (fun _ => 7)
      [{ id := some 5, title := some "T", originalSourceSentence := some "s",
         citationTag := some "[1]" }]
      (normalizeRef 7
        { id := some 5, title := some "T", originalSourceSentence := some "s",
          citationTag := some "[1]" })
      (by decide)
  · obtain ⟨q, hq, he⟩ := processCitationsRefs_normalization.2 (fun _ => 7)
      [{ id := some 5, title := some "T", originalSourceSentence := some "s",
         citationTag := some "[1]" }]
      { id := some 5, title := some "T", originalSourceSentence := some "s",
        citationTag := some "[1]" } (by decide) (by decide) (by decide)
    exact ⟨q, hq, he⟩

/-- C2 counterexample: the renderer is not idempotent.  With no references
at all, the text `,,,` renders to `,,` (the global `,\s*,` replacement
consumes its match and resumes after it), and re-rendering that output
gives `,` — a different string. -/
theorem getFilteredCitedText_not_idempotent :
    getFilteredCitedText ",,," ([] : List Reference) = ",," ∧
    getFilteredCitedText (getFilteredCitedText ",,," []) [] = "," ∧
    ("," : String) ≠ ",," := by
  decide

/-- C2 amended: re-rendering is the identity exactly on outputs that are
already fixed points of both passes — whenever the tag-removal pass and
the cleanup pipeline leave the first output unchanged, applying the
renderer to its own output reproduces it.  (In general neither pass is
idempotent, see the counterexample.) -/
theorem getFilteredCitedText_idempotent_of_fixed (T : String) (R : List Reference)
    (h1 : R.foldl applyRefFilter (getFilteredCitedText T R) = getFilteredCitedText T R)
    (h2 : cleanupChain (getFilteredCitedText T R) = getFilteredCitedText T R) :
    getFilteredCitedText (getFilteredCitedText T R) R = getFilteredCitedText T R := by
  conv_lhs => rw [getFilteredCitedText]
  rw [h1, h2]

/-- C2 witness: Scenario 1's input satisfies both fixed-point conditions,
so its rendering is stable under re-rendering. -/
theorem getFilteredCitedText_idempotent_witness :
    getFilteredCitedText
      (getFilteredCitedText "AI improves outcomes [1] and [2]."
        [{ id := some 1, citationTag := some "[1]", isSelected := some false },
         { id := some 2, citationTag := some "[2]", isSelected := some true }])
      [{ id := some 1, citationTag := some "[1]", isSelected := some false },
       { id := some 2, citationTag := some "[2]", isSelected := some true }] =
    getFilteredCitedText "AI improves outcomes [1] and [2]."
      [{ id := some 1, citationTag := some "[1]", isSelected := some false },
       { id := some 2, citationTag := some "[2]", isSelected := some true }] :=
  getFilteredCitedText_idempotent_of_fixed _ _ (by decide) (by decide)

/-- C8 counterexample: the deselected tags `aa` and `aba` are not
substrings of one another, yet the two removal orders render `aaba`
differently (`ba` versus `a`): removing `aa` first destroys the only
occurrence of `aba`, removing `aba` first destroys one `a` of `aa`'s
occurrence. -/
theorem getFilteredCitedText_order_dependent :
    hasSubstr "aa" "aba" = false ∧ hasSubstr "aba" "aa" = false ∧
    List.Perm
      [({ citationTag := some "aa", isSelected := some false } : Reference),
       { citationTag := some "aba", isSelected := some false }]
      [({ citationTag := some "aba", isSelected := some false } : Reference),
       { citationTag := some "aa", isSelected := some false }] ∧
    getFilteredCitedText "aaba"
      [{ citationTag := some "aa", isSelected := some false },
       { citationTag := some "aba", isSelected := some false }] = "ba" ∧
    getFilteredCitedText "aaba"
      [{ citationTag := some "aba", isSelected := some false },
       { citationTag := some "aa", isSelected := some false }] = "a" ∧
    ("ba" : String) ≠ "a" := by
  refine ⟨by decide, by decide, ?_, by decide, by decide, by decide⟩
  exact List.Perm.swap _ _ _

/-- C8 amended: the rendered output is invariant under permutations of the
reference list provided the per-reference removal steps pairwise commute
on the elements of the list (substring-freeness of the tags alone does not
guarantee this, see the counterexample). -/
theorem getFilteredCitedText_perm_invariant (T : String) (R R' : List Reference)
    (hp : List.Perm R R')
    (hc : ∀ a ∈ R, ∀ b ∈ R, ∀ s : String,
      applyRefFilter (applyRefFilter s a) b = applyRefFilter (applyRefFilter s b) a) :
    getFilteredCitedText T R = getFilteredCitedText T R' := by
  rw [getFilteredCitedText, getFilteredCitedText, hp.foldl_eq' hc T]

/-- C8 witness: two distinct references carrying the same deselected tag
`[1]` commute, so the two orders render identically. -/
theorem getFilteredCitedText_perm_invariant_witness :
    List.Perm
      [({ title := some "A", citationTag := some "[1]", isSelected := some false } : Reference),
       { title := some "B", citationTag := some "[1]", isSelected := some false }]
      [({ title := some "B", citationTag := some "[1]", isSelected := some false } : Reference),
       { title := some "A", citationTag := some "[1]", isSelected := some false }] ∧
    getFilteredCitedText "x [1] y [1]."
      [{ title := some "A", citationTag := some "[1]", isSelected := some false },
       { title := some "B", citationTag := some "[1]", isSelected := some false }] =
    getFilteredCitedText "x [1] y [1]."
      [{ title := some "B", citationTag := some "[1]", isSelected := some false },
       { title := some "A", citationTag := some "[1]", isSelected := some false }] := by
  refine ⟨List.Perm.swap _ _ _, ?_⟩
  refine getFilteredCitedText_perm_invariant _ _ _ (List.Perm.swap _ _ _) ?_
  intro a ha b hb s
  simp only [List.mem_cons, List.not_mem_nil, or_false] at ha hb
  rcases ha with rfl | rfl <;> rcases hb with rfl | rfl <;> rfl

/-- Splitting `pre ++ sep ++ rest` at `sep` yields `(pre, rest)` when no
occurrence of `sep` starts inside `pre`. -/
theorem splitOnceAux_append (sep rest : List Char) (hsep : sep ≠ []) :
    ∀ (pre : List Char),
      (∀ i, i < pre.length → leadsWith sep (List.drop i (pre ++ (sep ++ rest))) = false) →
      splitOnceAux sep (pre ++ (sep ++ rest)).length (pre ++ (sep ++ rest)) = some (pre, rest) := by
  intro pre
  induction pre with
  | nil =>
    intro _
    obtain ⟨a, as, rfl⟩ : ∃ a as, sep = a :: as := by
      cases sep with
      | nil => exact absurd rfl hsep
      | cons a as => exact ⟨a, as, rfl⟩
    simp only [List.nil_append, List.cons_append, List.length_cons]
    rw [splitOnceAux]
    rw [if_pos]
    · rw [List.length_cons]
      simp only [List.drop_succ_cons]
      rw [show List.drop as.length (as ++ rest) = rest from List.drop_left as rest]
    · have := leadsWith_append_self (a :: as) rest
      simpa [List.cons_append] using this
  | cons c p ih =>
    intro H
    have h0 : leadsWith sep (c :: (p ++ (sep ++ rest))) = false := by
      have := H 0 (by simp)
      simpa using this
    have hrec := ih (fun i hi => by
      have := H (i + 1) (by simpa using Nat.succ_lt_succ hi)
      simpa [List.drop_succ_cons] using this)
    simp only [List.cons_append, List.length_cons]
    rw [splitOnceAux, if_neg (by simp [h0]), hrec]

/-- C5 counterexample: on the raw response `---REFERENCES_START---not json`
the text before the sentinel is empty after stripping and trimming, yet the
code returns the fixed fallback message, not that empty narrative (the
reference list is empty, as the claim states). -/
theorem processCitations_empty_narrative :
    processCitations (fun _ => none) (fun _ => 0) (SENTINEL ++ "not json") =
      (FALLBACK_TEXT, []) ∧
    jsTrim (stripCitedLabel (part0 SENTINEL (SENTINEL ++ "not json"))) = "" ∧
    FALLBACK_TEXT ≠ "" := by
  decide

/-- C5 amended: for every response of the form `pre ++ sentinel ++
"not json"` in which no sentinel occurrence starts inside `pre`, no error
is raised and the result is the label-stripped, trimmed text before the
sentinel — or the fixed fallback message when that text is empty — paired
with an empty reference list, for every `JSON.parse` model and every id
supply. -/
theorem processCitations_sentinel_not_json (parse : String → Option (List Reference))
    (rand : Nat → Int) (pre : String)
    (H : ∀ i, i < pre.data.length →
      leadsWith SENTINEL.data
        (List.drop i (pre.data ++ (SENTINEL.data ++ ("not json" : String).data))) = false) :
    processCitations parse rand (pre ++ (SENTINEL ++ "not json")) =
      ((if jsTrim (stripCitedLabel pre) = "" then FALLBACK_TEXT
        else jsTrim (stripCitedLabel pre)), []) := by
  have hdata : (pre ++ (SENTINEL ++ "not json")).data =
      pre.data ++ (SENTINEL.data ++ ("not json" : String).data) := by
    simp [String.data_append]
  have hs := splitOnceAux_append SENTINEL.data ("not json" : String).data (by decide) pre.data H
  have hsplit : splitOnce SENTINEL (pre ++ (SENTINEL ++ "not json")) = some (pre, "not json") := by
    rw [splitOnce, hdata, hs]
  have hhas : hasSubstr SENTINEL (pre ++ (SENTINEL ++ "not json")) = true := by
    rw [hasSubstr, hsplit]
    rfl
  have hp0 : part0 SENTINEL (pre ++ (SENTINEL ++ "not json")) = pre := by
    rw [part0, hsplit]
  have hp1 : part1 SENTINEL (pre ++ (SENTINEL ++ "not json")) = "not json" := by
    rw [part1, hsplit]
    show part0 SENTINEL "not json" = "not json"
    decide
  have hext : extractJsonArray "not json" = none := by decide
  rw [processCitations]
  simp only [hhas, hp0, hp1, hext, if_true]
  rfl

/-- C5 witness: a concrete labelled narrative followed by the sentinel and
the unparseable payload `not json` yields the stripped, trimmed narrative
and no references. -/
theorem processCitations_sentinel_not_json_witness :
    processCitations (fun _ => none) (fun _ => 1)
      ("Cited Text: AI cures [1]." ++ (SENTINEL ++ "not json")) =
      ("AI cures [1].", []) := by
  have h := processCitations_sentinel_not_json (fun _ => none) (fun _ => 1)
    "Cited Text: AI cures [1]." (by decide)
  rw [h]
  decide
